import Mathlib

/-!
Verification of the organization-deletion workflow
(`packages/trpc/server/routers/viewer/organizations/adminDelete.handler.ts`)
and of the organizations schema migration
(`packages/prisma/migrations/20230518173925_organizations/migration.sql`).

The handler is embedded as a pure function over an explicit store.  Each
outbound call (`deleteDomain`, `prisma.user.update`, `prisma.team.delete`)
is recorded in an effect trace, and `prisma.user.update` may be made to
fail through an explicit oracle (the list of user ids whose update
rejects), which models a thrown persistence error mid-loop.
-/

/-- A user row, restricted to the fields the handler reads and writes:
`renameUsers` is typed over `{ id: number; username: string | null }[]`. -/
structure User where
  id : Nat
  username : Option String
deriving DecidableEq, Repr

/-- A team row, restricted to the fields the handler reads.  The Prisma
filter `metadata: { path: ["isOrganization"], equals: true }` is modelled
by the boolean field `isOrganization`. -/
structure Team where
  id : Nat
  name : String
  slug : Option String
  isOrganization : Bool
deriving DecidableEq, Repr

/-- A row of the Membership table, linking a user to a team. -/
structure MembershipRow where
  teamId : Nat
  userId : Nat
deriving DecidableEq, Repr

/-- The relational store the handler runs against. -/
structure Store where
  teams : List Team
  users : List User
  memberships : List MembershipRow
deriving DecidableEq, Repr

/-- One outbound call made by the handler. -/
inductive Effect where
  | releaseDomain (slug : String)
  | updateUsername (userId : Nat) (newUsername : String)
  | deleteTeam (teamId : Nat)
deriving DecidableEq, Repr

/-- Errors the handler can surface: the `TRPCError` thrown on the
not-found/not-an-organization check, or a failed `prisma.user.update`. -/
inductive HandlerError where
  | trpc (code : String) (message : String)
  | updateFailed (userId : Nat)
deriving DecidableEq, Repr

/-- The success value `{ ok: true, message: ... }`. -/
structure AdminDeleteResult where
  ok : Bool
  message : String
deriving DecidableEq, Repr

/-- The session user found in `ctx`; the handler never reads it, so its
fields are arbitrary representative ones. -/
structure TrpcSessionUser where
  id : Nat
  name : Option String
deriving DecidableEq, Repr

/-- `TAdminDeleteInput`: the input carries the organization id. -/
structure TAdminDeleteInput where
  orgId : Nat
deriving DecidableEq, Repr

/-- The `{ ctx, input }` argument of the handler. -/
structure AdminDeleteOption where
  ctx : TrpcSessionUser
  input : TAdminDeleteInput
deriving DecidableEq, Repr

/-- Result of running the handler: final store, trace of outbound calls,
and the outcome (success value or surfaced error). -/
structure RunResult where
  store : Store
  trace : List Effect
  outcome : Except HandlerError AdminDeleteResult
deriving Repr

/-- JavaScript `user.username || ""`: `null` and the empty string are both
falsy and collapse to `""`. -/
def jsOrEmpty : Option String → String
  | none => ""
  | some s => if s = "" then "" else s

/-- The rewritten username `` `${user.username || ""}-${user.id}` ``. -/
def newUsername (u : User) : String :=
  jsOrEmpty u.username ++ "-" ++ Nat.repr u.id

/-- The trace event of the `prisma.user.update` call for one member. -/
def updEvt (u : User) : Effect :=
  Effect.updateUsername u.id (newUsername u)

/-- `prisma.team.findUnique` with the `isOrganization` metadata filter and
`include: { members: { select: { user: true } } }`: the flagged team, if
any, together with the user record of each of its membership rows. -/
def findOrgWithMembers (orgId : Nat) (st : Store) : Option (Team × List User) :=
  match st.teams.find? (fun t => t.id == orgId && t.isOrganization) with
  | none => none
  | some t =>
      some (t, (st.memberships.filter (fun m => m.teamId == orgId)).filterMap
        (fun m => st.users.find? (fun v => v.id == m.userId)))

/-- One `prisma.user.update`: rewrite the username of the row(s) whose id
matches, using the member snapshot `u` fetched by `findOrgWithMembers`. -/
def renameUser (u : User) (st : Store) : Store :=
  { st with users := st.users.map (fun v =>
      if v.id = u.id then { v with username := some (newUsername u) } else v) }

/-- Result of the `renameUsers` loop: store and trace after the updates
that ran, and the id of the member whose update failed, if any. -/
structure RenameResult where
  store : Store
  trace : List Effect
  failed : Option Nat
deriving DecidableEq, Repr

/-- The `renameUsers` loop: one awaited `prisma.user.update` per member,
in membership-list order.  `failing` is the oracle of user ids whose
update rejects; the first such member aborts the loop, leaving earlier
renames committed. -/
def renameUsersFail (failing : List Nat) : List User → Store → RenameResult
  | [], st => { store := st, trace := [], failed := none }
  | u :: us, st =>
      if u.id ∈ failing then { store := st, trace := [], failed := some u.id }
      else
        let r := renameUsersFail failing us (renameUser u st)
        { store := r.store, trace := updEvt u :: r.trace, failed := r.failed }

/-- `prisma.team.delete` on the team id, with the store-level cascade that
removes the team's membership rows. -/
def deleteTeamCascade (teamId : Nat) (st : Store) : Store :=
  { st with
    teams := st.teams.filter (fun t => t.id != teamId),
    memberships := st.memberships.filter (fun m => m.teamId != teamId) }

/-- The domain-release calls made for a found organization: `deleteDomain`
is called on the slug exactly when `if (foundOrg.slug)` is truthy, i.e.
the slug is present and non-empty. -/
def relTraceOf (t : Team) : List Effect :=
  match t.slug with
  | none => []
  | some s => if s = "" then [] else [Effect.releaseDomain s]

/-- `adminDeleteHandler`: look up the flagged team with its members; if
absent, throw the `FORBIDDEN` error; otherwise release the domain when the
slug is truthy, rename the member users one at a time, delete the team,
and return the confirmation message.  `failing` is the oracle of user ids
whose `prisma.user.update` rejects. -/
def adminDeleteHandler (opt : AdminDeleteOption) (failing : List Nat)
    (st : Store) : RunResult :=
  match findOrgWithMembers opt.input.orgId st with
  | none =>
      { store := st, trace := [],
        outcome := Except.error
          (HandlerError.trpc "FORBIDDEN" "This team isnt a org or doesnt exist") }
  | some (foundOrg, memberUsers) =>
      let r := renameUsersFail failing memberUsers st
      match r.failed with
      | some uid =>
          { store := r.store, trace := relTraceOf foundOrg ++ r.trace,
            outcome := Except.error (HandlerError.updateFailed uid) }
      | none =>
          { store := deleteTeamCascade opt.input.orgId r.store,
            trace := relTraceOf foundOrg ++ r.trace
              ++ [Effect.deleteTeam opt.input.orgId],
            outcome := Except.ok
              { ok := true,
                message := "Organization " ++ foundOrg.name ++ " deleted." } }

/-! ### Basic characterization of the rename loop -/

/-- The effect of one `prisma.user.update` on a single user row. -/
def renameStep (u : User) (r : User) : User :=
  if r.id = u.id then { r with username := some (newUsername u) } else r

/-- The store after the whole rename loop succeeds. -/
def renameAll (ms : List User) (st : Store) : Store :=
  ms.foldl (fun s u => renameUser u s) st

/-- The cumulative effect of the rename loop on a single user row. -/
def renamedBy (ms : List User) (r : User) : User :=
  ms.foldl (fun r u => renameStep u r) r

theorem renameUsersFail_no_fail (failing : List Nat) (ms : List User)
    (st : Store) (h : ∀ w ∈ ms, w.id ∉ failing) :
    renameUsersFail failing ms st =
      { store := renameAll ms st, trace := ms.map updEvt, failed := none } := by
  induction ms generalizing st with
  | nil => rfl
  | cons u us ih =>
      have hu : u.id ∉ failing := h u (List.mem_cons_self u us)
      have hrest : ∀ w ∈ us, w.id ∉ failing := fun w hw => h w (List.mem_cons_of_mem u hw)
      simp only [renameUsersFail, if_neg hu, ih (renameUser u st) hrest, renameAll,
        List.foldl_cons, List.map_cons]

theorem renameUsersFail_first_fail (failing : List Nat) (pre : List User)
    (u : User) (post : List User) (st : Store)
    (hpre : ∀ w ∈ pre, w.id ∉ failing) (hu : u.id ∈ failing) :
    renameUsersFail failing (pre ++ u :: post) st =
      { store := renameAll pre st, trace := pre.map updEvt,
        failed := some u.id } := by
  induction pre generalizing st with
  | nil => simp only [List.nil_append, renameUsersFail, if_pos hu, renameAll,
      List.foldl_nil, List.map_nil]
  | cons w ws ih =>
      have hw : w.id ∉ failing := hpre w (List.mem_cons_self w ws)
      have hrest : ∀ x ∈ ws, x.id ∉ failing := fun x hx => hpre x (List.mem_cons_of_mem w hx)
      rw [List.cons_append]
      simp only [renameUsersFail, if_neg hw]
      rw [ih (renameUser w st) hrest]
      simp only [renameAll, List.foldl_cons, List.map_cons]

theorem renameAll_users (ms : List User) (st : Store) :
    (renameAll ms st).users = st.users.map (renamedBy ms) := by
  induction ms generalizing st with
  | nil =>
      have h : renamedBy [] = id := funext (fun r => rfl)
      rw [h, List.map_id]
      rfl
  | cons u us ih =>
      show (renameAll us (renameUser u st)).users = _
      rw [ih, renameUser, List.map_map]
      rfl

theorem renameAll_teams (ms : List User) (st : Store) :
    (renameAll ms st).teams = st.teams := by
  induction ms generalizing st with
  | nil => rfl
  | cons u us ih => exact ih (renameUser u st)

theorem renameAll_memberships (ms : List User) (st : Store) :
    (renameAll ms st).memberships = st.memberships := by
  induction ms generalizing st with
  | nil => rfl
  | cons u us ih => exact ih (renameUser u st)

theorem renameStep_id (u r : User) : (renameStep u r).id = r.id := by
  unfold renameStep
  split <;> rfl

theorem renamedBy_id (ms : List User) (r : User) : (renamedBy ms r).id = r.id := by
  induction ms generalizing r with
  | nil => rfl
  | cons u us ih =>
      show (renamedBy us (renameStep u r)).id = r.id
      rw [ih, renameStep_id]

theorem renamedBy_eq_self (ms : List User) (r : User)
    (h : ∀ u ∈ ms, u.id ≠ r.id) : renamedBy ms r = r := by
  induction ms generalizing r with
  | nil => rfl
  | cons u us ih =>
      have hu : u.id ≠ r.id := h u (List.mem_cons_self u us)
      show renamedBy us (renameStep u r) = r
      rw [renameStep, if_neg (fun hr => hu hr.symm)]
      exact ih r (fun x hx => h x (List.mem_cons_of_mem u hx))

theorem renamedBy_username_stable (ms : List User) (u : User) :
    ∀ r : User, (∀ w ∈ ms, w.id = u.id → w = u) → r.id = u.id →
    r.username = some (newUsername u) →
    (renamedBy ms r).username = some (newUsername u) := by
  induction ms with
  | nil => intro r _ _ hr; exact hr
  | cons w ws ih =>
      intro r huniq hrid hr
      have hws : ∀ x ∈ ws, x.id = u.id → x = u :=
        fun x hx => huniq x (List.mem_cons_of_mem w hx)
      show (renamedBy ws (renameStep w r)).username = some (newUsername u)
      by_cases hw : r.id = w.id
      · have hwu : w = u := huniq w (List.mem_cons_self w ws) (hw ▸ hrid)
        rw [renameStep, if_pos hw]
        exact ih _ hws hrid (by rw [hwu])
      · rw [renameStep, if_neg hw]
        exact ih r hws hrid hr

theorem renamedBy_username (ms : List User) (u : User) :
    ∀ r : User, u ∈ ms → (∀ w ∈ ms, w.id = u.id → w = u) → r.id = u.id →
    (renamedBy ms r).username = some (newUsername u) := by
  induction ms with
  | nil => intro r hmem; exact absurd hmem (List.not_mem_nil u)
  | cons w ws ih =>
      intro r hmem huniq hrid
      have hws : ∀ x ∈ ws, x.id = u.id → x = u :=
        fun x hx => huniq x (List.mem_cons_of_mem w hx)
      show (renamedBy ws (renameStep w r)).username = some (newUsername u)
      by_cases hw : w.id = u.id
      · have hwu : w = u := huniq w (List.mem_cons_self w ws) hw
        rw [renameStep, if_pos (hrid.trans hw.symm)]
        exact renamedBy_username_stable ws u _ hws hrid (by rw [hwu])
      · rw [renameStep, if_neg (fun hr => hw (hr.symm.trans hrid))]
        have hmem' : u ∈ ws := by
          rcases List.mem_cons.mp hmem with h | h
          · exact absurd (by rw [h] : w.id = u.id) hw
          · exact h
        exact ih r hmem' hws hrid

/-! ### Members returned by the lookup -/

theorem mem_members_find? (orgId : Nat) (st : Store) (org : Team)
    (ms : List User) (hfind : findOrgWithMembers orgId st = some (org, ms)) :
    ∀ w ∈ ms, st.users.find? (fun v => v.id == w.id) = some w := by
  intro w hw
  unfold findOrgWithMembers at hfind
  cases hfound : st.teams.find? (fun t => t.id == orgId && t.isOrganization) with
  | none => rw [hfound] at hfind; exact absurd hfind (by simp)
  | some t =>
      rw [hfound] at hfind
      have hms : ms = (st.memberships.filter (fun m => m.teamId == orgId)).filterMap
          (fun m => st.users.find? (fun v => v.id == m.userId)) := by
        have := (Option.some.injEq _ _).mp hfind
        exact (Prod.mk.injEq _ _ _ _).mp this |>.2.symm
      rw [hms] at hw
      rcases List.mem_filterMap.mp hw with ⟨m, _, hfm⟩
      have hpw := List.find?_some hfm
      have hid : w.id = m.userId := eq_of_beq hpw
      have hfun : (fun v : User => v.id == w.id)
          = (fun v : User => v.id == m.userId) :=
        funext (fun v => by rw [hid])
      rw [hfun]
      exact hfm

theorem members_same_id_eq (orgId : Nat) (st : Store) (org : Team)
    (ms : List User) (hfind : findOrgWithMembers orgId st = some (org, ms)) :
    ∀ w1 ∈ ms, ∀ w2 ∈ ms, w1.id = w2.id → w1 = w2 := by
  intro w1 h1 w2 h2 hid
  have e1 := mem_members_find? orgId st org ms hfind w1 h1
  have e2 := mem_members_find? orgId st org ms hfind w2 h2
  have hfun : (fun v : User => v.id == w1.id)
      = (fun v : User => v.id == w2.id) :=
    funext (fun v => by rw [hid])
  rw [hfun] at e1
  exact Option.some.inj (e1.symm.trans e2)

/-! ### Shape of the handler's result in each branch -/

theorem handler_reject_of_no_org (opt : AdminDeleteOption) (failing : List Nat)
    (st : Store)
    (h : ∀ t ∈ st.teams, t.id = opt.input.orgId → t.isOrganization = false) :
    adminDeleteHandler opt failing st =
      { store := st, trace := [],
        outcome := Except.error
          (HandlerError.trpc "FORBIDDEN" "This team isnt a org or doesnt exist") } := by
  have hnone : st.teams.find? (fun t => t.id == opt.input.orgId && t.isOrganization)
      = none := by
    rw [List.find?_eq_none]
    intro t ht hc
    rcases Bool.and_eq_true _ _ |>.mp hc with ⟨h1, h2⟩
    rw [h t ht (eq_of_beq h1)] at h2
    exact Bool.false_ne_true h2
  unfold adminDeleteHandler findOrgWithMembers
  rw [hnone]

theorem handler_success_eq (opt : AdminDeleteOption) (failing : List Nat)
    (st : Store) (org : Team) (ms : List User)
    (hfind : findOrgWithMembers opt.input.orgId st = some (org, ms))
    (hnf : ∀ w ∈ ms, w.id ∉ failing) :
    adminDeleteHandler opt failing st =
      { store := deleteTeamCascade opt.input.orgId (renameAll ms st),
        trace := relTraceOf org ++ ms.map updEvt
          ++ [Effect.deleteTeam opt.input.orgId],
        outcome := Except.ok
          { ok := true,
            message := "Organization " ++ org.name ++ " deleted." } } := by
  unfold adminDeleteHandler
  rw [hfind]
  simp only [renameUsersFail_no_fail failing ms st hnf]

theorem handler_first_fail_eq (opt : AdminDeleteOption) (failing : List Nat)
    (st : Store) (org : Team) (pre : List User) (u : User) (post : List User)
    (hfind : findOrgWithMembers opt.input.orgId st = some (org, pre ++ u :: post))
    (hpre : ∀ w ∈ pre, w.id ∉ failing) (hu : u.id ∈ failing) :
    adminDeleteHandler opt failing st =
      { store := renameAll pre st,
        trace := relTraceOf org ++ pre.map updEvt,
        outcome := Except.error (HandlerError.updateFailed u.id) } := by
  unfold adminDeleteHandler
  rw [hfind]
  simp only [renameUsersFail_first_fail failing pre u post st hpre hu]

/-! ### Concrete fixtures (the scenario of the spec, §8.7) -/

def acmeTeam : Team :=
  { id := 42, name := "Acme", slug := some "acme", isOrganization := true }

def aliceUser : User := { id := 1, username := some "alice" }

def bobUser : User := { id := 2, username := none }

def acmeStore : Store :=
  { teams := [acmeTeam],
    users := [aliceUser, bobUser],
    memberships := [{ teamId := 42, userId := 1 }, { teamId := 42, userId := 2 }] }

def adminCtx : TrpcSessionUser := { id := 99, name := some "admin" }

def acmeOpt : AdminDeleteOption := { ctx := adminCtx, input := { orgId := 42 } }

def nonOrgStore : Store :=
  { teams := [{ id := 42, name := "Acme", slug := none, isOrganization := false }],
    users := [aliceUser], memberships := [{ teamId := 42, userId := 1 }] }

/-! ### Claims -/

/-- C1: whenever no team with the requested id is flagged as an
organization — whether the team is missing altogether or merely not an
organization — the handler rejects with the fixed `FORBIDDEN`
`TRPCError` and performs no mutation: the store is returned unchanged and
the trace is empty (no domain release, no username update, no team
deletion). -/
theorem adminDelete_rejects_when_no_flagged_org (opt : AdminDeleteOption)
    (failing : List Nat) (st : Store)
    (h : ∀ t ∈ st.teams, t.id = opt.input.orgId → t.isOrganization = false) :
    adminDeleteHandler opt failing st =
      { store := st, trace := [],
        outcome := Except.error
          (HandlerError.trpc "FORBIDDEN" "This team isnt a org or doesnt exist") } :=
  handler_reject_of_no_org opt failing st h

/-- Witness for C1: a store whose team 42 exists but is not an
organization is rejected unchanged. -/
theorem adminDelete_rejects_when_no_flagged_org_witness :
    (∀ t ∈ nonOrgStore.teams, t.id = acmeOpt.input.orgId →
      t.isOrganization = false) ∧
    adminDeleteHandler acmeOpt [] nonOrgStore =
      { store := nonOrgStore, trace := [],
        outcome := Except.error
          (HandlerError.trpc "FORBIDDEN" "This team isnt a org or doesnt exist") } :=
  ⟨by decide, adminDelete_rejects_when_no_flagged_org acmeOpt [] nonOrgStore (by decide)⟩

/-- C4: after the handler completes successfully, no team with the given
id remains in the store, and no membership row of that team remains (the
cascade is delegated to the store-level delete). -/
theorem adminDelete_removes_team_and_memberships (opt : AdminDeleteOption)
    (st : Store) (org : Team) (ms : List User)
    (hfind : findOrgWithMembers opt.input.orgId st = some (org, ms)) :
    (∃ res, (adminDeleteHandler opt [] st).outcome = Except.ok res) ∧
    (∀ t ∈ (adminDeleteHandler opt [] st).store.teams, t.id ≠ opt.input.orgId) ∧
    (∀ m ∈ (adminDeleteHandler opt [] st).store.memberships,
      m.teamId ≠ opt.input.orgId) := by
  have hs := handler_success_eq opt [] st org ms hfind (by intro w _; simp)
  rw [hs]
  refine ⟨⟨_, rfl⟩, ?_, ?_⟩
  · intro t ht
    have := (List.mem_filter.mp ht).2
    exact bne_iff_ne.mp this
  · intro m hm
    have := (List.mem_filter.mp hm).2
    exact bne_iff_ne.mp this

/-- Witness for C4: the Acme scenario. -/
theorem adminDelete_removes_team_and_memberships_witness :
    findOrgWithMembers acmeOpt.input.orgId acmeStore
      = some (acmeTeam, [aliceUser, bobUser]) ∧
    ((∃ res, (adminDeleteHandler acmeOpt [] acmeStore).outcome = Except.ok res) ∧
    (∀ t ∈ (adminDeleteHandler acmeOpt [] acmeStore).store.teams,
      t.id ≠ acmeOpt.input.orgId) ∧
    (∀ m ∈ (adminDeleteHandler acmeOpt [] acmeStore).store.memberships,
      m.teamId ≠ acmeOpt.input.orgId)) :=
  ⟨by decide,
   adminDelete_removes_team_and_memberships acmeOpt acmeStore acmeTeam
     [aliceUser, bobUser] (by decide)⟩

/-- C5: on success the returned value is `{ ok := true }` together with
the confirmation message embedding the organization's original name,
`"Organization " ++ name ++ " deleted."`. -/
theorem adminDelete_success_message (opt : AdminDeleteOption) (st : Store)
    (org : Team) (ms : List User)
    (hfind : findOrgWithMembers opt.input.orgId st = some (org, ms)) :
    (adminDeleteHandler opt [] st).outcome =
      Except.ok { ok := true,
                  message := "Organization " ++ org.name ++ " deleted." } := by
  rw [handler_success_eq opt [] st org ms hfind (by intro w _; simp)]

/-- Witness for C5: for the organization named `"Acme"` the message is
exactly `"Organization Acme deleted."`. -/
theorem adminDelete_success_message_witness :
    findOrgWithMembers acmeOpt.input.orgId acmeStore
      = some (acmeTeam, [aliceUser, bobUser]) ∧
    (adminDeleteHandler acmeOpt [] acmeStore).outcome =
      Except.ok { ok := true, message := "Organization Acme deleted." } :=
  ⟨by decide,
   adminDelete_success_message acmeOpt acmeStore acmeTeam [aliceUser, bobUser]
     (by decide)⟩

/-- C7: the handler is not idempotent: after a successful run has deleted
the organization, running it again with the same input on the resulting
store yields the not-found rejection (and mutates nothing further), not a
repeated success. -/
theorem adminDelete_not_idempotent (opt : AdminDeleteOption) (st : Store)
    (org : Team) (ms : List User)
    (hfind : findOrgWithMembers opt.input.orgId st = some (org, ms)) :
    (∃ res, (adminDeleteHandler opt [] st).outcome = Except.ok res) ∧
    adminDeleteHandler opt [] (adminDeleteHandler opt [] st).store =
      { store := (adminDeleteHandler opt [] st).store, trace := [],
        outcome := Except.error
          (HandlerError.trpc "FORBIDDEN" "This team isnt a org or doesnt exist") } := by
  have hs := handler_success_eq opt [] st org ms hfind (by intro w _; simp)
  constructor
  · rw [hs]; exact ⟨_, rfl⟩
  · apply handler_reject_of_no_org
    intro t ht hid
    rw [hs] at ht
    have := (List.mem_filter.mp ht).2
    exact absurd hid (bne_iff_ne.mp this)

/-- Witness for C7: the Acme scenario, deleted twice. -/
theorem adminDelete_not_idempotent_witness :
    findOrgWithMembers acmeOpt.input.orgId acmeStore
      = some (acmeTeam, [aliceUser, bobUser]) ∧
    ((∃ res, (adminDeleteHandler acmeOpt [] acmeStore).outcome = Except.ok res) ∧
    adminDeleteHandler acmeOpt [] (adminDeleteHandler acmeOpt [] acmeStore).store =
      { store := (adminDeleteHandler acmeOpt [] acmeStore).store, trace := [],
        outcome := Except.error
          (HandlerError.trpc "FORBIDDEN" "This team isnt a org or doesnt exist") }) :=
  ⟨by decide,
   adminDelete_not_idempotent acmeOpt acmeStore acmeTeam [aliceUser, bobUser]
     (by decide)⟩

/-- C10: the handler's result — final store, effect trace and outcome —
does not depend on the authenticated session user in `ctx`: the handler
destructures only `input`. -/
theorem adminDelete_ctx_independent (c1 c2 : TrpcSessionUser)
    (inp : TAdminDeleteInput) (failing : List Nat) (st : Store) :
    adminDeleteHandler { ctx := c1, input := inp } failing st =
      adminDeleteHandler { ctx := c2, input := inp } failing st := rfl

/-- `user.username || ""` agrees with `user.username ?? ""`: the only
extra value `||` collapses is the empty string, which `?? ""` maps to the
empty string anyway. -/
theorem jsOrEmpty_eq_getD (o : Option String) : jsOrEmpty o = o.getD "" := by
  cases o with
  | none => rfl
  | some s =>
      by_cases h : s = "" <;> simp [jsOrEmpty, h]

/-- C2: after the handler completes successfully, every member user's
username equals the original username (or the empty string when it was
null) followed by a hyphen and the user's id; in particular a user with
null username and id 2 ends up with username `"-2"` (see the witness). -/
theorem adminDelete_renames_member (opt : AdminDeleteOption) (st : Store)
    (org : Team) (ms : List User) (u : User)
    (hfind : findOrgWithMembers opt.input.orgId st = some (org, ms))
    (hu : u ∈ ms) :
    ((adminDeleteHandler opt [] st).store.users.find?
        (fun v => v.id == u.id)).map User.username
      = some (some (u.username.getD "" ++ "-" ++ Nat.repr u.id)) := by
  rw [handler_success_eq opt [] st org ms hfind (by intro w _; simp)]
  show ((renameAll ms st).users.find? (fun v => v.id == u.id)).map User.username
      = _
  rw [renameAll_users, List.find?_map]
  have hcomp : ((fun v : User => v.id == u.id) ∘ renamedBy ms)
      = (fun v : User => v.id == u.id) :=
    funext (fun v => by
      show ((renamedBy ms v).id == u.id) = (v.id == u.id)
      rw [renamedBy_id])
  rw [hcomp, mem_members_find? opt.input.orgId st org ms hfind u hu]
  have husr : (renamedBy ms u).username = some (newUsername u) :=
    renamedBy_username ms u u hu
      (fun w hw hid => members_same_id_eq opt.input.orgId st org ms hfind
        w hw u hu hid) rfl
  show some (renamedBy ms u).username = _
  rw [husr, newUsername, jsOrEmpty_eq_getD]

/-- Witness for C2: in the Acme scenario, the member with null username
and id 2 ends up with username `"-2"`. -/
theorem adminDelete_renames_member_witness :
    findOrgWithMembers acmeOpt.input.orgId acmeStore
      = some (acmeTeam, [aliceUser, bobUser]) ∧
    bobUser ∈ [aliceUser, bobUser] ∧
    ((adminDeleteHandler acmeOpt [] acmeStore).store.users.find?
        (fun v => v.id == bobUser.id)).map User.username
      = some (some "-2") :=
  ⟨by decide, by decide,
   adminDelete_renames_member acmeOpt acmeStore acmeTeam [aliceUser, bobUser]
     bobUser (by decide) (by decide)⟩

/-- Recognizer of domain-release calls in the trace. -/
def isDomainRelease : Effect → Bool
  | Effect.releaseDomain _ => true
  | _ => false

theorem filter_isDomainRelease_map_updEvt (l : List User) :
    (l.map updEvt).filter isDomainRelease = [] := by
  induction l with
  | nil => rfl
  | cons u us ih =>
      show List.filter isDomainRelease (updEvt u :: us.map updEvt) = []
      rw [List.filter_cons_of_neg (by simp [isDomainRelease, updEvt])]
      exact ih

/-- Either no member's update fails, or the member list splits at the
first member whose update fails. -/
theorem first_fail_split (failing : List Nat) (ms : List User) :
    (∀ w ∈ ms, w.id ∉ failing) ∨
    ∃ pre u post, ms = pre ++ u :: post ∧ (∀ w ∈ pre, w.id ∉ failing) ∧
      u.id ∈ failing := by
  induction ms with
  | nil => exact Or.inl (fun w hw => absurd hw (List.not_mem_nil w))
  | cons w ws ih =>
      by_cases hw : w.id ∈ failing
      · exact Or.inr ⟨[], w, ws, rfl, fun x hx => absurd hx (List.not_mem_nil x), hw⟩
      · rcases ih with h | ⟨pre, u, post, heq, hpre, hu⟩
        · exact Or.inl (fun x hx => by
            rcases List.mem_cons.mp hx with h1 | h1
            · rw [h1]; exact hw
            · exact h x h1)
        · refine Or.inr ⟨w :: pre, u, post, by rw [heq, List.cons_append], ?_, hu⟩
          intro x hx
          rcases List.mem_cons.mp hx with h1 | h1
          · rw [h1]; exact hw
          · exact hpre x h1

/-- Whatever the update-failure oracle, the trace of a run that found the
organization is the domain-release calls followed by release-free
events. -/
theorem handler_trace_split (opt : AdminDeleteOption) (failing : List Nat)
    (st : Store) (org : Team) (ms : List User)
    (hfind : findOrgWithMembers opt.input.orgId st = some (org, ms)) :
    ∃ tr', (adminDeleteHandler opt failing st).trace = relTraceOf org ++ tr' ∧
      tr'.filter isDomainRelease = [] := by
  rcases first_fail_split failing ms with hclean | ⟨pre, u, post, heq, hpre, hu⟩
  · refine ⟨ms.map updEvt ++ [Effect.deleteTeam opt.input.orgId], ?_, ?_⟩
    · rw [handler_success_eq opt failing st org ms hfind hclean]
      show relTraceOf org ++ ms.map updEvt ++ _ = _
      rw [List.append_assoc]
    · rw [List.filter_append, filter_isDomainRelease_map_updEvt]
      rfl
  · refine ⟨pre.map updEvt, ?_, filter_isDomainRelease_map_updEvt pre⟩
    rw [heq] at hfind
    rw [handler_first_fail_eq opt failing st org pre u post hfind hpre hu]

/-- C3: for every found organization: if the slug is present and
non-empty, the run makes exactly one domain-release call, with exactly
that slug, and it is the first outbound call of the run — in particular
it precedes every username mutation; if the slug is absent or empty, no
domain-release call occurs at all.  This holds whatever the
update-failure oracle. -/
theorem adminDelete_domain_release (opt : AdminDeleteOption)
    (failing : List Nat) (st : Store) (org : Team) (ms : List User)
    (hfind : findOrgWithMembers opt.input.orgId st = some (org, ms)) :
    (∀ s : String, org.slug = some s → s ≠ "" →
      (adminDeleteHandler opt failing st).trace.filter isDomainRelease
          = [Effect.releaseDomain s] ∧
      (adminDeleteHandler opt failing st).trace.head?
          = some (Effect.releaseDomain s)) ∧
    ((org.slug = none ∨ org.slug = some "") →
      (adminDeleteHandler opt failing st).trace.filter isDomainRelease = []) := by
  rcases handler_trace_split opt failing st org ms hfind with ⟨tr', htr, hclean⟩
  constructor
  · intro s hs hne
    have hrel : relTraceOf org = [Effect.releaseDomain s] := by
      rw [relTraceOf, hs]
      simp [hne]
    rw [htr, hrel]
    constructor
    · show List.filter isDomainRelease (Effect.releaseDomain s :: tr') = _
      rw [List.filter_cons_of_pos (by rfl), hclean]
    · rfl
  · intro hs
    have hrel : relTraceOf org = [] := by
      rcases hs with h | h
      · rw [relTraceOf, h]
      · rw [relTraceOf, h]
        simp
    rw [htr, hrel, List.nil_append, hclean]

/-- Witness for C3: the Acme scenario (slug `"acme"`). -/
theorem adminDelete_domain_release_witness :
    findOrgWithMembers acmeOpt.input.orgId acmeStore
      = some (acmeTeam, [aliceUser, bobUser]) ∧
    (acmeTeam.slug = some "acme" ∧ "acme" ≠ "" ∧
      (adminDeleteHandler acmeOpt [] acmeStore).trace.filter isDomainRelease
          = [Effect.releaseDomain "acme"] ∧
      (adminDeleteHandler acmeOpt [] acmeStore).trace.head?
          = some (Effect.releaseDomain "acme")) :=
  ⟨by decide, rfl, by decide,
   (adminDelete_domain_release acmeOpt [] acmeStore acmeTeam
      [aliceUser, bobUser] (by decide)).1 "acme" rfl (by decide)⟩

/-- C6: username rewrites run one at a time in membership-list order; when
the first failing rewrite is the one of member `u` (all members before it
succeed), the run aborts with the `updateFailed` error, the members before
`u` keep their new usernames (not undone), the members from `u` on are
unchanged, the team and its membership rows are not deleted, and the trace
is exactly the domain-release calls followed by the updates that
succeeded — the release is not undone and no team deletion occurs. -/
theorem adminDelete_partial_failure (opt : AdminDeleteOption)
    (failing : List Nat) (st : Store) (org : Team)
    (pre : List User) (u : User) (post : List User)
    (hfind : findOrgWithMembers opt.input.orgId st = some (org, pre ++ u :: post))
    (hnodup : ((pre ++ u :: post).map User.id).Nodup)
    (hpre : ∀ w ∈ pre, w.id ∉ failing) (hu : u.id ∈ failing) :
    (adminDeleteHandler opt failing st).outcome
        = Except.error (HandlerError.updateFailed u.id) ∧
    (adminDeleteHandler opt failing st).store.teams = st.teams ∧
    (adminDeleteHandler opt failing st).store.memberships = st.memberships ∧
    (∀ w ∈ pre,
      ((adminDeleteHandler opt failing st).store.users.find?
          (fun v => v.id == w.id)).map User.username
        = some (some (newUsername w))) ∧
    (∀ w ∈ u :: post,
      (adminDeleteHandler opt failing st).store.users.find?
          (fun v => v.id == w.id)
        = st.users.find? (fun v => v.id == w.id)) ∧
    (adminDeleteHandler opt failing st).trace
        = relTraceOf org ++ pre.map updEvt := by
  have hshape := handler_first_fail_eq opt failing st org pre u post hfind hpre hu
  rw [hshape]
  have husers : (renameAll pre st).users = st.users.map (renamedBy pre) :=
    renameAll_users pre st
  refine ⟨rfl, renameAll_teams pre st, renameAll_memberships pre st, ?_, ?_, rfl⟩
  · intro w hw
    have hwms : w ∈ pre ++ u :: post := List.mem_append_left _ hw
    show ((renameAll pre st).users.find? (fun v => v.id == w.id)).map
        User.username = _
    rw [husers, List.find?_map]
    have hcomp : ((fun v : User => v.id == w.id) ∘ renamedBy pre)
        = (fun v : User => v.id == w.id) :=
      funext (fun v => by
        show ((renamedBy pre v).id == w.id) = (v.id == w.id)
        rw [renamedBy_id])
    rw [hcomp, mem_members_find? opt.input.orgId st org _ hfind w hwms]
    have husr : (renamedBy pre w).username = some (newUsername w) :=
      renamedBy_username pre w w hw
        (fun x hx hid => members_same_id_eq opt.input.orgId st org _ hfind
          x (List.mem_append_left _ hx) w hwms hid) rfl
    show some (renamedBy pre w).username = _
    rw [husr]
  · intro w hw
    have hwms : w ∈ pre ++ u :: post := List.mem_append_right _ hw
    show (renameAll pre st).users.find? (fun v => v.id == w.id) = _
    rw [husers, List.find?_map]
    have hcomp : ((fun v : User => v.id == w.id) ∘ renamedBy pre)
        = (fun v : User => v.id == w.id) :=
      funext (fun v => by
        show ((renamedBy pre v).id == w.id) = (v.id == w.id)
        rw [renamedBy_id])
    rw [hcomp, mem_members_find? opt.input.orgId st org _ hfind w hwms]
    have hdisj : ∀ x ∈ pre, x.id ≠ w.id := by
      intro x hx hxw
      rw [List.map_append] at hnodup
      rcases List.nodup_append.mp hnodup with ⟨_, _, hd⟩
      exact hd (List.mem_map_of_mem User.id hx)
        (hxw ▸ List.mem_map_of_mem User.id hw)
    show some (renamedBy pre w) = some w
    rw [renamedBy_eq_self pre w hdisj]

/-- Witness for C6: in the Acme scenario, the update of user 2 (the
second member) fails; user 1 keeps the new name `"alice-1"`, user 2 is
untouched, the team survives. -/
theorem adminDelete_partial_failure_witness :
    findOrgWithMembers acmeOpt.input.orgId acmeStore
      = some (acmeTeam, [aliceUser] ++ bobUser :: []) ∧
    (([aliceUser] ++ bobUser :: []).map User.id).Nodup ∧
    (∀ w ∈ [aliceUser], w.id ∉ [2]) ∧ bobUser.id ∈ [2] ∧
    ((adminDeleteHandler acmeOpt [2] acmeStore).outcome
        = Except.error (HandlerError.updateFailed bobUser.id) ∧
    (adminDeleteHandler acmeOpt [2] acmeStore).store.teams = acmeStore.teams ∧
    (adminDeleteHandler acmeOpt [2] acmeStore).store.memberships
        = acmeStore.memberships ∧
    (∀ w ∈ [aliceUser],
      ((adminDeleteHandler acmeOpt [2] acmeStore).store.users.find?
          (fun v => v.id == w.id)).map User.username
        = some (some (newUsername w))) ∧
    (∀ w ∈ bobUser :: [],
      (adminDeleteHandler acmeOpt [2] acmeStore).store.users.find?
          (fun v => v.id == w.id)
        = acmeStore.users.find? (fun v => v.id == w.id)) ∧
    (adminDeleteHandler acmeOpt [2] acmeStore).trace
        = relTraceOf acmeTeam ++ [aliceUser].map updEvt) :=
  ⟨by decide, by decide, by decide, by decide,
   adminDelete_partial_failure acmeOpt [2] acmeStore acmeTeam
     [aliceUser] bobUser [] (by decide) (by decide) (by decide) (by decide)⟩

/-! ### Decimal rendering of user ids: `Nat.repr` produces dash-free,
injective strings.  These facts underlie the collision-freedom of the
rewritten usernames. -/

/-- Parse a most-significant-first list of decimal digit characters. -/
def decOfChars (l : List Char) : Nat :=
  l.foldl (fun a c => 10 * a + (c.toNat - 48)) 0

theorem decOfChars_append_one (l : List Char) (c : Char) :
    decOfChars (l ++ [c]) = 10 * decOfChars l + (c.toNat - 48) := by
  unfold decOfChars
  rw [List.foldl_append]
  rfl

theorem digitChar_toNat (d : Nat) (h : d < 10) :
    (Nat.digitChar d).toNat = 48 + d := by
  interval_cases d <;> rfl

theorem digitChar_ne_dash (d : Nat) (h : d < 10) : Nat.digitChar d ≠ '-' := by
  interval_cases d <;> decide

theorem toDigitsCore_append_acc (f : Nat) :
    ∀ (n : Nat) (acc : List Char),
    Nat.toDigitsCore 10 f n acc = Nat.toDigitsCore 10 f n [] ++ acc := by
  induction f with
  | zero => intro n acc; rfl
  | succ f ih =>
      intro n acc
      show (if n / 10 = 0 then _ else _) = (if n / 10 = 0 then _ else _) ++ acc
      by_cases h0 : n / 10 = 0
      · rw [if_pos h0, if_pos h0]
        rfl
      · rw [if_neg h0, if_neg h0, ih (n / 10) (Nat.digitChar (n % 10) :: acc),
          ih (n / 10) [Nat.digitChar (n % 10)], List.append_assoc]
        rfl

theorem toDigitsCore_mem (f : Nat) :
    ∀ (n : Nat) (acc : List Char) (c : Char),
    c ∈ Nat.toDigitsCore 10 f n acc → c ∈ acc ∨ ∃ d, d < 10 ∧ c = Nat.digitChar d := by
  induction f with
  | zero => intro n acc c hc; exact Or.inl hc
  | succ f ih =>
      intro n acc c hc
      by_cases h0 : n / 10 = 0
      · rw [show Nat.toDigitsCore 10 (f + 1) n acc
            = Nat.digitChar (n % 10) :: acc from by
            show (if n / 10 = 0 then _ else _) = _
            rw [if_pos h0]] at hc
        rcases List.mem_cons.mp hc with h | h
        · exact Or.inr ⟨n % 10, Nat.mod_lt n (by omega), h⟩
        · exact Or.inl h
      · rw [show Nat.toDigitsCore 10 (f + 1) n acc
            = Nat.toDigitsCore 10 f (n / 10) (Nat.digitChar (n % 10) :: acc) from by
            show (if n / 10 = 0 then _ else _) = _
            rw [if_neg h0]] at hc
        rcases ih (n / 10) (Nat.digitChar (n % 10) :: acc) c hc with h | h
        · rcases List.mem_cons.mp h with h1 | h1
          · exact Or.inr ⟨n % 10, Nat.mod_lt n (by omega), h1⟩
          · exact Or.inl h1
        · exact Or.inr h

theorem decOfChars_toDigitsCore (f : Nat) :
    ∀ n : Nat, n < f → decOfChars (Nat.toDigitsCore 10 f n []) = n := by
  induction f with
  | zero => intro n h; omega
  | succ f ih =>
      intro n h
      by_cases h0 : n / 10 = 0
      · rw [show Nat.toDigitsCore 10 (f + 1) n []
            = [Nat.digitChar (n % 10)] from by
            show (if n / 10 = 0 then _ else _) = _
            rw [if_pos h0]]
        have hn : n < 10 := by omega
        rw [show decOfChars [Nat.digitChar (n % 10)]
            = 10 * 0 + ((Nat.digitChar (n % 10)).toNat - 48) from rfl,
          digitChar_toNat (n % 10) (Nat.mod_lt n (by omega))]
        omega
      · rw [show Nat.toDigitsCore 10 (f + 1) n []
            = Nat.toDigitsCore 10 f (n / 10) [Nat.digitChar (n % 10)] from by
            show (if n / 10 = 0 then _ else _) = _
            rw [if_neg h0]]
        rw [toDigitsCore_append_acc f (n / 10) [Nat.digitChar (n % 10)],
          decOfChars_append_one, ih (n / 10) (by
            have h10 : n / 10 < n := Nat.div_lt_self (by omega) (by omega)
            omega),
          digitChar_toNat (n % 10) (Nat.mod_lt n (by omega))]
        omega

theorem repr_data (n : Nat) : (Nat.repr n).data = Nat.toDigitsCore 10 (n + 1) n [] :=
  rfl

theorem decOfChars_repr (n : Nat) : decOfChars (Nat.repr n).data = n := by
  rw [repr_data]
  exact decOfChars_toDigitsCore (n + 1) n (Nat.lt_succ_self n)

theorem repr_data_no_dash (n : Nat) (c : Char) (hc : c ∈ (Nat.repr n).data) :
    c ≠ '-' := by
  rw [repr_data] at hc
  rcases toDigitsCore_mem (n + 1) n [] c hc with h | ⟨d, hd, hcd⟩
  · exact absurd h (List.not_mem_nil c)
  · exact hcd ▸ digitChar_ne_dash d hd

/-- The decimal id-part of a rewritten username: the maximal run of
non-hyphen characters at the end of the string (reversed). -/
def idPart (s : String) : List Char :=
  s.data.reverse.takeWhile (fun c => c != '-')

theorem idPart_append_repr (s : String) (n : Nat) :
    idPart (s ++ "-" ++ Nat.repr n) = (Nat.repr n).data.reverse := by
  unfold idPart
  rw [String.data_append, String.data_append]
  rw [List.reverse_append]
  have hall : ∀ c ∈ (Nat.repr n).data.reverse, (c != '-') = true := by
    intro c hc
    exact bne_iff_ne.mpr (repr_data_no_dash n c (List.mem_reverse.mp hc))
  rw [List.takeWhile_append_of_pos hall]
  have hrest : (s.data ++ "-".data).reverse.takeWhile (fun c => c != '-') = [] := by
    rw [List.reverse_append]
    rfl
  rw [hrest, List.append_nil]

theorem repr_data_reverse_injective :
    Function.Injective (fun n : Nat => (Nat.repr n).data.reverse) := by
  intro m n h
  have hd : (Nat.repr m).data = (Nat.repr n).data := by
    have := congrArg List.reverse h
    simpa using this
  have hm := decOfChars_repr m
  rw [hd, decOfChars_repr n] at hm
  exact hm.symm

/-- C8: the identifier-suffixed renaming is collision-free: member users
with pairwise distinct ids receive pairwise distinct rewritten
usernames. -/
theorem newUsername_collision_free (users : List User)
    (h : (users.map User.id).Nodup) : (users.map newUsername).Nodup := by
  apply List.Nodup.of_map idPart
  rw [List.map_map]
  have hfun : idPart ∘ newUsername
      = (fun n : Nat => (Nat.repr n).data.reverse) ∘ User.id :=
    funext (fun u => idPart_append_repr (jsOrEmpty u.username) u.id)
  rw [hfun, ← List.map_map]
  exact h.map repr_data_reverse_injective

/-- Witness for C8: members whose raw usernames could collide without the
hyphen-id suffix (`"x"` with id 12 versus `"x-1"` with id 2) still get
distinct rewritten usernames. -/
theorem newUsername_collision_free_witness :
    (([{ id := 12, username := some "x" },
       { id := 2, username := some "x-1" },
       { id := 1, username := none }] : List User).map User.id).Nodup ∧
    (([{ id := 12, username := some "x" },
       { id := 2, username := some "x-1" },
       { id := 1, username := none }] : List User).map newUsername).Nodup :=
  ⟨by decide,
   newUsername_collision_free
     [{ id := 12, username := some "x" },
      { id := 2, username := some "x-1" },
      { id := 1, username := none }] (by decide)⟩

/-! ### The organizations migration (20230518173925_organizations) -/

/-- A column of a table, with its SQL type and nullability. -/
structure ColumnDef where
  table : String
  name : String
  sqlType : String
  nullable : Bool
deriving DecidableEq, Repr

/-- An index; `unique` distinguishes `CREATE UNIQUE INDEX` from a plain
index. -/
structure IndexDef where
  name : String
  table : String
  columns : List String
  unique : Bool
deriving DecidableEq, Repr

/-- A foreign-key constraint. -/
structure FkDef where
  table : String
  constraintName : String
  column : String
  refTable : String
  refColumn : String
  onDelete : String
  onUpdate : String
deriving DecidableEq, Repr

/-- The schema objects the migration manipulates. -/
structure Schema where
  columns : List ColumnDef
  indexes : List IndexDef
  foreignKeys : List FkDef
deriving DecidableEq, Repr

/-- The four kinds of DDL statement the migration file uses. -/
inductive SqlStmt where
  | dropIndex (name : String)
  | addColumn (c : ColumnDef)
  | createUniqueIndex (name : String) (table : String) (cols : List String)
  | addForeignKey (fk : FkDef)
deriving DecidableEq, Repr

def applyStmt (s : Schema) : SqlStmt → Schema
  | SqlStmt.dropIndex nm =>
      { s with indexes := s.indexes.filter (fun i => i.name != nm) }
  | SqlStmt.addColumn c => { s with columns := s.columns ++ [c] }
  | SqlStmt.createUniqueIndex nm tb cols =>
      { s with indexes := s.indexes
          ++ [{ name := nm, table := tb, columns := cols, unique := true }] }
  | SqlStmt.addForeignKey fk =>
      { s with foreignKeys := s.foreignKeys ++ [fk] }

/-- `migration.sql`, statement by statement, in file order. -/
def organizationsMigration : List SqlStmt :=
  [SqlStmt.dropIndex "users_email_idx",
   SqlStmt.dropIndex "users_username_key",
   SqlStmt.addColumn
     { table := "Team", name := "parentId", sqlType := "INTEGER", nullable := true },
   SqlStmt.addColumn
     { table := "users", name := "organizationId", sqlType := "INTEGER",
       nullable := true },
   SqlStmt.createUniqueIndex "users_email_username_key" "users"
     ["email", "username"],
   SqlStmt.createUniqueIndex "users_username_organizationId_key" "users"
     ["username", "organizationId"],
   SqlStmt.addForeignKey
     { table := "users", constraintName := "users_organizationId_fkey",
       column := "organizationId", refTable := "Team", refColumn := "id",
       onDelete := "SET NULL", onUpdate := "CASCADE" },
   SqlStmt.addForeignKey
     { table := "Team", constraintName := "Team_parentId_fkey",
       column := "parentId", refTable := "Team", refColumn := "id",
       onDelete := "CASCADE", onUpdate := "CASCADE" }]

def applyMigration (s : Schema) : Schema :=
  organizationsMigration.foldl applyStmt s

/-- A users row, restricted to the columns of the affected constraints. -/
structure UserRow where
  email : Option String
  username : Option String
  organizationId : Option Nat
deriving DecidableEq, Repr

/-- A value stored in one of those columns. -/
inductive SqlValue where
  | str (s : String)
  | int (n : Nat)
deriving DecidableEq, Repr

def colVal (r : UserRow) : String → Option SqlValue
  | "email" => r.email.map SqlValue.str
  | "username" => r.username.map SqlValue.str
  | "organizationId" => r.organizationId.map SqlValue.int
  | _ => none

/-- Two rows collide on a unique index over `cols` when every indexed
column holds equal non-null values in both rows (SQL `NULL`s are treated
as distinct). -/
def rowsConflict (cols : List String) (r1 r2 : UserRow) : Prop :=
  ∀ c ∈ cols, colVal r1 c = colVal r2 c ∧ colVal r1 c ≠ none

instance rowsConflictDecidable (cols : List String) (r1 r2 : UserRow) :
    Decidable (rowsConflict cols r1 r2) :=
  List.decidableBAll (fun c => colVal r1 c = colVal r2 c ∧ colVal r1 c ≠ none) cols

def sharedNameRow1 : UserRow :=
  { email := some "a@example.com", username := some "sam", organizationId := some 1 }

def sharedNameRow2 : UserRow :=
  { email := some "b@example.com", username := some "sam", organizationId := some 2 }

/-- C9: in any schema whose only index on `users("username")` is the
global unique index `users_username_key`, the migration (i) leaves no
index on `users("username")` at all — global username uniqueness is
dropped — (ii) adds the nullable `users.organizationId` column, (iii) adds
the unique constraints on `(username, organizationId)` and
`(email, username)`, and (iv) as a consequence two users sharing a
username but with different organizations are accepted by both new
constraints even though the dropped global constraint would have rejected
them. -/
theorem migration_scopes_username_uniqueness (S : Schema)
    (h : ∀ i ∈ S.indexes, i.table = "users" → i.columns = ["username"] →
      i.name = "users_username_key") :
    (∀ i ∈ (applyMigration S).indexes, i.table = "users" →
      i.columns = ["username"] → False) ∧
    ({ table := "users", name := "organizationId", sqlType := "INTEGER",
       nullable := true } : ColumnDef) ∈ (applyMigration S).columns ∧
    ({ name := "users_username_organizationId_key", table := "users",
       columns := ["username", "organizationId"], unique := true } : IndexDef)
      ∈ (applyMigration S).indexes ∧
    ({ name := "users_email_username_key", table := "users",
       columns := ["email", "username"], unique := true } : IndexDef)
      ∈ (applyMigration S).indexes ∧
    (sharedNameRow1.username = sharedNameRow2.username ∧
     sharedNameRow1.organizationId ≠ sharedNameRow2.organizationId ∧
     ¬ rowsConflict ["username", "organizationId"] sharedNameRow1 sharedNameRow2 ∧
     ¬ rowsConflict ["email", "username"] sharedNameRow1 sharedNameRow2 ∧
     rowsConflict ["username"] sharedNameRow1 sharedNameRow2) := by
  have hindexes : (applyMigration S).indexes =
      ((S.indexes.filter (fun i => i.name != "users_email_idx")).filter
        (fun i => i.name != "users_username_key"))
      ++ [{ name := "users_email_username_key", table := "users",
            columns := ["email", "username"], unique := true }]
      ++ [{ name := "users_username_organizationId_key", table := "users",
            columns := ["username", "organizationId"], unique := true }] := rfl
  refine ⟨?_, ?_, ?_, ?_, rfl, by decide, by decide, by decide, by decide⟩
  · intro i hi htb hcols
    rw [hindexes] at hi
    rcases List.mem_append.mp hi with hi | hi
    · rcases List.mem_append.mp hi with hi | hi
      · have h2 := (List.mem_filter.mp hi).2
        have h1 := List.mem_filter.mp (List.mem_filter.mp hi).1
        have := h i h1.1 htb hcols
        exact bne_iff_ne.mp h2 this
      · rcases List.mem_cons.mp hi with hi | hi
        · rw [hi] at hcols
          exact absurd hcols (by decide)
        · exact absurd hi (List.not_mem_nil i)
    · rcases List.mem_cons.mp hi with hi | hi
      · rw [hi] at hcols
        exact absurd hcols (by decide)
      · exact absurd hi (List.not_mem_nil i)
  · show _ ∈ (S.columns
        ++ [{ table := "Team", name := "parentId", sqlType := "INTEGER",
              nullable := true }])
        ++ [{ table := "users", name := "organizationId", sqlType := "INTEGER",
              nullable := true }]
    exact List.mem_append_right _ (List.mem_singleton.mpr rfl)
  · rw [hindexes]
    exact List.mem_append_right _ (List.mem_singleton.mpr rfl)
  · rw [hindexes]
    exact List.mem_append_left _ (List.mem_append_right _ (List.mem_singleton.mpr rfl))

/-- The pre-migration fragment of the users schema: the plain email index
and the global unique username index. -/
def preUsersSchema : Schema :=
  { columns := [{ table := "users", name := "email", sqlType := "TEXT",
                  nullable := false },
                { table := "users", name := "username", sqlType := "TEXT",
                  nullable := true }],
    indexes := [{ name := "users_email_idx", table := "users",
                  columns := ["email"], unique := false },
                { name := "users_username_key", table := "users",
                  columns := ["username"], unique := true }],
    foreignKeys := [] }

/-- Witness for C9: the migration applied to the pre-migration users
schema fragment. -/
theorem migration_scopes_username_uniqueness_witness :
    (∀ i ∈ preUsersSchema.indexes, i.table = "users" →
      i.columns = ["username"] → i.name = "users_username_key") ∧
    (∀ i ∈ (applyMigration preUsersSchema).indexes, i.table = "users" →
      i.columns = ["username"] → False) :=
  ⟨by decide,
   (migration_scopes_username_uniqueness preUsersSchema (by decide)).1⟩
